import Mathlib

/-
Verification development for the enhanced research engine core
(research_workspace/core/enhanced_research_engine.py and
research_workspace/core/agent_collaboration.py).

The Python code is shallowly embedded: pure computations become Lean
functions over List Char / String / Rat; calls to the external search
and text-generation services are passed in as function or
Except-valued parameters (an error value models a raised exception at
the service boundary); Python dicts iterated in insertion order become
association lists.  Python float arithmetic on small decimal constants
is modelled with exact rationals.
-/

namespace ResearchEngine

/-! String primitives modelling the Python built-ins used by the
engine: str.lower, str.split() (whitespace, empties dropped),
str.split(sep) (empties kept), substring containment, str.replace,
str.title, and whitespace strip.  All are structurally recursive so
the kernel can evaluate them on concrete inputs. -/

/-- Model of Python str.lower on the character list of a string. -/
def lowerChars (l : List Char) : List Char := l.map Char.toLower

/-- Model of Python str.lower. -/
def lowerStr (s : String) : String := (lowerChars s.toList).asString

/-- Helper for whitespace splitting: accumulates the current word (reversed). -/
def splitWsAux : List Char → List Char → List (List Char)
  | [], cur => if cur.isEmpty then [] else [cur.reverse]
  | c :: rest, cur =>
    if c.isWhitespace then
      (if cur.isEmpty then splitWsAux rest [] else cur.reverse :: splitWsAux rest [])
    else splitWsAux rest (c :: cur)

/-- Model of Python str.split() with no argument: split on runs of
whitespace, dropping empty pieces. -/
def splitWs (l : List Char) : List (List Char) := splitWsAux l []

/-- Words of a string after lowercasing, as Python s.lower().split(). -/
def lowerWords (s : String) : List String :=
  (splitWs (lowerChars s.toList)).map List.asString

/-- Words of a string without lowercasing, as Python s.split(). -/
def plainWords (s : String) : List String := (splitWs s.toList).map List.asString

/-- Infix test on character lists, modelling Python membership pat in s. -/
def isInfixCh (pat : List Char) : List Char → Bool
  | [] => pat.isEmpty
  | c :: rest => pat.isPrefixOf (c :: rest) || isInfixCh pat rest

/-- Model of the Python expression pat in s for strings. -/
def strContains (s pat : String) : Bool := isInfixCh pat.toList s.toList

/-- Helper for separator splitting: accumulates the current piece (reversed). -/
def splitSepAux (sep : Char) : List Char → List Char → List String
  | [], cur => [cur.reverse.asString]
  | c :: rest, cur =>
    if c = sep then cur.reverse.asString :: splitSepAux sep rest []
    else splitSepAux sep rest (c :: cur)

/-- Model of Python str.split(sep) for a one-character separator:
empty pieces are kept. -/
def splitSep (sep : Char) (s : String) : List String := splitSepAux sep s.toList []

/-- Fuel-driven model of Python str.replace: replaces non-overlapping
occurrences of pat left to right.  Fuel is the input length plus one,
which suffices because every step consumes at least one character. -/
def replaceCharsAux (pat sub : List Char) : Nat → List Char → List Char
  | 0, s => s
  | _, [] => []
  | fuel + 1, c :: rest =>
    if pat.isPrefixOf (c :: rest) && !pat.isEmpty then
      sub ++ replaceCharsAux pat sub fuel ((c :: rest).drop pat.length)
    else c :: replaceCharsAux pat sub fuel rest

/-- Model of Python str.replace (all occurrences, left to right). -/
def replaceStr (s pat sub : String) : String :=
  (replaceCharsAux pat.toList sub.toList (s.toList.length + 1) s.toList).asString

/-- One step of Python str.title: a letter is uppercased when the
previous character is not a letter, lowercased otherwise. -/
def titleCharsAux : Bool → List Char → List Char
  | _, [] => []
  | prevAlpha, c :: rest =>
    if c.isAlpha then
      (if prevAlpha then c.toLower else c.toUpper) :: titleCharsAux true rest
    else c :: titleCharsAux false rest

/-- Model of Python str.title. -/
def titleStr (s : String) : String := (titleCharsAux false s.toList).asString

/-- Model of Python str.strip: drop whitespace at both ends. -/
def stripStr (s : String) : String :=
  (((s.toList.dropWhile Char.isWhitespace).reverse.dropWhile Char.isWhitespace).reverse).asString

/-! Data model.  ExtractedSource in the spec is a SearchResult dict
that gains fields as it moves through the Scout; the embedding flattens
that into a single structure whose added fields default to the values
Python .get would return for a missing key. -/

/-- Search result dict produced by WebScout, including the fields
added by content extraction and relevance ranking. -/
structure SearchResult where
  title : String := "No title"
  url : String := ""
  snippet : String := "No snippet"
  source_query : String := ""
  search_position : Nat := 0
  extracted_content : String := ""
  content_length : Nat := 0
  extraction_success : Bool := false
  relevance_score : ℚ := 0
deriving Repr, DecidableEq

/-! QueryPlanner (enhanced_research_engine.py lines 25-122). -/

/-- The six fixed phrasing templates of
QueryPlanner._fallback_decomposition, applied to the user query. -/
def base_aspects (user_query : String) : List String :=
  [s!"What is {user_query} and how does it work?",
   s!"What are the current applications and use cases of {user_query}?",
   s!"What are the advantages and benefits of {user_query}?",
   s!"What are the challenges and limitations of {user_query}?",
   s!"What are the recent developments in {user_query}?",
   s!"What is the market outlook for {user_query}?"]

/-- QueryPlanner._fallback_decomposition: the deterministic template
fallback used when the generation call raises. -/
def fallback_decomposition (user_query : String) (num_questions : Nat) : List String :=
  (base_aspects user_query).take num_questions

/-- QueryPlanner.generate_focused_sub_questions with the generation
call and its response parsing abstracted as an Except parameter: an ok
value is the parsed question list of the try branch, an error value is
a raised exception, answered by the template fallback. -/
def generate_focused_sub_questions (gen : Except String (List String))
    (user_query : String) (num_questions : Nat) : List String :=
  match gen with
  | .ok parsed => parsed.take num_questions
  | .error _ => fallback_decomposition user_query num_questions

/-! WebScout deduplication (enhanced_research_engine.py lines 269-281). -/

/-- Loop of WebScout._remove_duplicates: seen is the set of lowercased
urls already kept; falsy (empty) urls are skipped. -/
def remove_duplicates_go : List SearchResult → List String → List SearchResult
  | [], _ => []
  | r :: rs, seen =>
    let url := lowerStr r.url
    if url ≠ "" ∧ url ∉ seen then r :: remove_duplicates_go rs (url :: seen)
    else remove_duplicates_go rs seen

/-- WebScout._remove_duplicates: keep the first occurrence of each
lowercased url, dropping results with an empty url. -/
def remove_duplicates (results : List SearchResult) : List SearchResult :=
  remove_duplicates_go results []

/-! WebScout relevance scoring (enhanced_research_engine.py lines 339-384). -/

/-- Terms of a field for relevance scoring: whitespace-split words of
the lowercased text, kept only when longer than two characters, as a
set (dedup).  The Python word.strip() is the identity after split(). -/
def score_words (s : String) : List String :=
  ((lowerWords s).filter (fun w => 2 < w.length)).dedup

/-- Size of the intersection of two word sets, with the first already
deduplicated. -/
def overlapCount (qw fw : List String) : Nat := (qw.filter (fun w => fw.contains w)).length

/-- WebScout._calculate_relevance_score: weighted term overlap of the
query with title (30 percent), extracted content (40 percent) and
snippet (20 percent), plus a quality bonus (5 points for successful
extraction, 5 points for an edu, org or gov substring of the url),
clamped above by 1.  Returns 0 when the query has no term longer than
two characters. -/
def calculate_relevance_score (query : String) (source : SearchResult) : ℚ :=
  let query_words := score_words query
  if query_words.isEmpty then 0
  else
    let title_words := score_words source.title
    let title_score : ℚ := ((overlapCount query_words title_words : ℚ) / query_words.length) * (30/100)
    let content_words := score_words source.extracted_content
    let content_score : ℚ := ((overlapCount query_words content_words : ℚ) / query_words.length) * (40/100)
    let snippet_words := score_words source.snippet
    let snippet_score : ℚ := ((overlapCount query_words snippet_words : ℚ) / query_words.length) * (20/100)
    let url := lowerStr source.url
    let quality_score : ℚ :=
      (if source.extraction_success then (5/100 : ℚ) else 0) +
      (if strContains url "edu" || strContains url "org" || strContains url "gov" then (5/100 : ℚ) else 0)
    min (title_score + content_score + snippet_score + quality_score) 1

/-- Stable insertion used to model Python sorted with reverse=True:
an element moves past exactly the elements with a strictly larger key,
so equal keys keep their original relative order. -/
def insertByKeyDesc (key : α → ℚ) (x : α) : List α → List α
  | [] => [x]
  | y :: ys => if key x < key y then y :: insertByKeyDesc key x ys else x :: y :: ys

/-- Stable descending sort by a rational key, extensionally equal to
Python sorted(l, key=key, reverse=True), which is a stable sort. -/
def sortByKeyDesc (key : α → ℚ) : List α → List α
  | [] => []
  | x :: xs => insertByKeyDesc key x (sortByKeyDesc key xs)

/-- WebScout._rank_by_relevance: store the relevance score on every
source, then sort descending by it. -/
def rank_by_relevance (query : String) (sources : List SearchResult) : List SearchResult :=
  sortByKeyDesc (fun s => s.relevance_score)
    (sources.map (fun s => { s with relevance_score := calculate_relevance_score query s }))

/-! WebScout deep search pipeline (enhanced_research_engine.py lines
144-267).  The Serper search call is a parameter
search : String to List SearchResult (the external SearchClient);
content extraction is a parameter extract : SearchResult to
Option SearchResult, where none models a worker whose future timed out
or a result lacking a url, both of which are dropped by
_extract_content_parallel. -/

def min_sources_per_query : Nat := 5

def target_sources_per_query : Nat := 3

/-- WebScout._deep_search_with_extraction: two search variants,
concatenated, deduplicated, then content-extracted. -/
def deep_search_with_extraction (search : String → List SearchResult)
    (extract : SearchResult → Option SearchResult) (query : String) : List SearchResult :=
  let direct_results := search query
  let expanded_results := search (query ++ " guide examples")
  let all_results := direct_results ++ expanded_results
  let unique_results := remove_duplicates all_results
  unique_results.filterMap extract

/-- The three fixed deepening search phrases of WebScout._search_deeper. -/
def deeper_terms (query : String) : List String :=
  [query ++ " research analysis", query ++ " technical details", query ++ " case studies examples"]

/-- Loop of WebScout._search_deeper: stop as soon as enough results
were accumulated, otherwise append the first three results of the next
deepening term. -/
def search_deeper_loop (search : String → List SearchResult) (needed : Nat) :
    List String → List SearchResult → List SearchResult
  | [], acc => acc
  | term :: terms, acc =>
    if needed ≤ acc.length then acc
    else search_deeper_loop search needed terms (acc ++ (search term).take 3)

/-- WebScout._search_deeper: issue up to three deepening searches and
return at most the number of results still needed to reach the
minimum.  Matches the source at its only call site, where
current_count is less than min_sources_per_query. -/
def search_deeper (search : String → List SearchResult) (query : String)
    (current_count : Nat) : List SearchResult :=
  let needed := min_sources_per_query - current_count
  (search_deeper_loop search needed (deeper_terms query) []).take needed

/-- Per-question body of WebScout.deep_search_all_questions: deep
search, deepen when below the minimum, rank by relevance, keep the top
target_sources_per_query sources. -/
def process_question (search : String → List SearchResult)
    (extract : SearchResult → Option SearchResult) (question : String) : List SearchResult :=
  let question_sources := deep_search_with_extraction search extract question
  let question_sources :=
    if question_sources.length < min_sources_per_query then
      question_sources ++ search_deeper search question question_sources.length
    else question_sources
  let ranked_sources := rank_by_relevance question question_sources
  ranked_sources.take target_sources_per_query

/-- Python dict assignment d[k] = v on an insertion-ordered
association list: overwrite in place when the key exists, append
otherwise. -/
def dict_insert (m : List (String × α)) (k : String) (v : α) : List (String × α) :=
  if k ∈ m.map Prod.fst then m.map (fun p => if p.1 = k then (k, v) else p)
  else m ++ [(k, v)]

/-- WebScout.deep_search_all_questions: one dict entry per
sub-question; the per-question body (which may raise) is the process
parameter, and an exception is answered by storing the empty list, so
the loop itself never raises. -/
def deep_search_all_questions (process : String → Except String (List SearchResult))
    (sub_questions : List String) : List (String × List SearchResult) :=
  sub_questions.foldl (fun acc question =>
    match process question with
    | .ok sources => dict_insert acc question sources
    | .error _ => dict_insert acc question []) []

/-! InformationAnalyst (enhanced_research_engine.py lines 387-757).
The generation-service calls are Except parameters; an error models a
raised or unparsable response. -/

/-- One fact dict of the key_information array produced by
_ai_extract_information, with the source metadata it attaches. -/
structure Fact where
  fact : String := ""
  relevance : String := ""
  confidence : ℚ := 0
  source_url : String := ""
  source_title : String := ""
deriving Repr, DecidableEq

/-- The source_metadata dict attached to an extraction. -/
structure SourceMeta where
  url : String := ""
  title : String := ""
  quality_score : ℚ := 0
  relevance_score : ℚ := 0
deriving Repr, DecidableEq

/-- Parsed result of one _ai_extract_information call. -/
structure Extraction where
  key_information : List Fact := []
  main_points : List String := []
  source_metadata : SourceMeta := {}
deriving Repr, DecidableEq

/-- One key_points entry of a parsed synthesis response. -/
structure KeyPoint where
  point : String := ""
  supporting_sources : List String := []
  confidence : ℚ := 0
deriving Repr, DecidableEq

/-- The JSON object _synthesize_information parses from the generation
response; defaults model the .get fallbacks. -/
structure ParsedSynthesis where
  synthesized_answer : String := ""
  key_points : List KeyPoint := []
  overall_confidence : ℚ := 0
  information_completeness : ℚ := 0
deriving Repr, DecidableEq

/-- The per-question answer dict owned by the Analyst; absent dict
keys of the fallback paths are modelled by the defaults. -/
structure SynthesisResult where
  answer : String := ""
  key_points : List KeyPoint := []
  source_urls : List String := []
  confidence_score : ℚ := 0
  completeness_score : ℚ := 0
  sources_count : Nat := 0
deriving Repr, DecidableEq

/-- InformationAnalyst._extract_information_from_sources with the
per-source generation call as parameter ai: sources with content
shorter than 50 characters are skipped before calling, a failed or
empty-fact response drops that source silently. -/
def extract_information_from_sources (ai : SearchResult → Except String Extraction)
    (sources : List SearchResult) : List Extraction :=
  sources.filterMap (fun source =>
    if source.extracted_content.length < 50 then none
    else
      match ai source with
      | .ok extraction_result =>
        if extraction_result.key_information.isEmpty then none else some extraction_result
      | .error _ => none)

/-- InformationAnalyst._fallback_synthesis: keep the facts with
confidence at least 0.7 when any exist, join the first three fact
statements with a period separator, fix the confidence at 0.6. -/
def fallback_synthesis (all_facts : List Fact) (all_sources : List SourceMeta)
    (sub_question : String) : SynthesisResult :=
  if all_facts.isEmpty then
    { answer := s!"Unable to find sufficient information for: {sub_question}",
      source_urls := [], confidence_score := 0 }
  else
    let high_conf_facts := all_facts.filter (fun f => (7:ℚ)/10 ≤ f.confidence)
    let answer :=
      if high_conf_facts.isEmpty then
        String.intercalate ". " ((all_facts.take 3).map (fun f => f.fact))
      else
        String.intercalate ". " ((high_conf_facts.take 3).map (fun f => f.fact))
    { answer := answer,
      source_urls := (all_sources.filter (fun s => s.url ≠ "")).map (fun s => s.url),
      confidence_score := 6/10,
      sources_count := all_sources.length }

/-- InformationAnalyst._synthesize_information with the synthesis
generation call as parameter gen: an empty extraction list returns the
no-information answer with confidence 0; a failing generation call
falls back to fallback_synthesis. -/
def synthesize_information (gen : Except String ParsedSynthesis)
    (extractions : List Extraction) (sub_question : String) : SynthesisResult :=
  if extractions.isEmpty then
    { answer := s!"No sufficient information found for: {sub_question}",
      source_urls := [], confidence_score := 0 }
  else
    let all_facts := extractions.flatMap (fun e => e.key_information)
    let all_sources := extractions.map (fun e => e.source_metadata)
    match gen with
    | .ok synthesis_result =>
      { answer := synthesis_result.synthesized_answer,
        key_points := synthesis_result.key_points,
        source_urls := (all_sources.filter (fun s => s.url ≠ "")).map (fun s => s.url),
        confidence_score := synthesis_result.overall_confidence,
        completeness_score := synthesis_result.information_completeness,
        sources_count := all_sources.length }
    | .error _ => fallback_synthesis all_facts all_sources sub_question

/-! ReportWriter (enhanced_research_engine.py lines 760-1035). -/

/-- One value of the Writer citation map, keyed by url. -/
structure CitationEntry where
  title : String := ""
  url : String := ""
  question_context : String := ""
deriving Repr, DecidableEq

/-- The fixed domain-to-title lookup table of
_generate_source_title_from_url, in source order. -/
def domain_titles : List (String × String) :=
  [("arxiv.org", "ArXiv Research Paper"),
   ("github.com", "GitHub Repository"),
   ("stackoverflow.com", "Stack Overflow"),
   ("medium.com", "Medium Article"),
   ("towardsdatascience.com", "Towards Data Science"),
   ("pytorch.org", "PyTorch Documentation"),
   ("tensorflow.org", "TensorFlow Documentation"),
   ("wikipedia.org", "Wikipedia"),
   ("nature.com", "Nature Journal"),
   ("sciencedirect.com", "ScienceDirect")]

/-- ReportWriter._generate_source_title_from_url: take the third
slash-separated piece of the url, drop www., look the domain up by
substring in the fixed table, otherwise title-case the bare domain;
any failure (empty url or fewer than three pieces) yields Source. -/
def generate_source_title_from_url (url : String) : String :=
  if url = "" then "Source"
  else
    match (splitSep '/' url).drop 2 with
    | [] => "Source"
    | d :: _ =>
      let domain := replaceStr d "www." ""
      match domain_titles.find? (fun p => strContains domain p.1) with
      | some p => p.2
      | none => titleStr (replaceStr (replaceStr (replaceStr domain ".com" "") ".org" "") ".edu" "")

/-- The citation entry recorded the first time a url is seen. -/
def mk_citation (question url : String) : CitationEntry :=
  { title := generate_source_title_from_url url, url := url, question_context := question }

/-- Inner step of _build_source_citation_map: record the url unless it
is already a key. -/
def add_citation (question : String) (m : List (String × CitationEntry)) (url : String) :
    List (String × CitationEntry) :=
  if url ∈ m.map Prod.fst then m else m ++ [(url, mk_citation question url)]

/-- ReportWriter._build_source_citation_map: iterate the answers in
dict order and their source_urls in list order, first writer wins. -/
def build_source_citation_map (sub_question_answers : List (String × SynthesisResult)) :
    List (String × CitationEntry) :=
  sub_question_answers.foldl (fun m qa => qa.2.source_urls.foldl (add_citation qa.1) m) []

/-! Report formatting (_validate_and_format_report and helpers).  The
re.sub passes are modelled by character scanners equivalent to the
non-overlapping left-to-right semantics of the source patterns. -/

/-- First header pass: a newline directly followed by a hash mark is
doubled. -/
def fix_header_newlines : List Char → List Char
  | [] => []
  | '\n' :: rest =>
    match rest with
    | '#' :: _ => '\n' :: '\n' :: fix_header_newlines rest
    | _ => '\n' :: fix_header_newlines rest
  | c :: rest => c :: fix_header_newlines rest

/-- Second header pass: after a line containing a hash mark, a newline
followed by a character other than newline or hash gains a blank line.
The flag records whether the current line has seen a hash mark. -/
def fix_header_spacing_aux : Bool → List Char → List Char
  | _, [] => []
  | seenHash, '\n' :: rest =>
    match rest with
    | c :: _ =>
      if seenHash && c != '\n' && c != '#' then '\n' :: '\n' :: fix_header_spacing_aux false rest
      else '\n' :: fix_header_spacing_aux false rest
    | [] => ['\n']
  | seenHash, c :: rest => c :: fix_header_spacing_aux (seenHash || c = '#') rest

/-- List pass: a newline whose following whitespace run ends at a
bullet character gains a blank line; the consumed run is re-emitted. -/
def fix_list_spacing_aux : Nat → List Char → List Char
  | 0, s => s
  | _, [] => []
  | fuel + 1, c :: rest =>
    if c = '\n' then
      let run := rest.takeWhile Char.isWhitespace
      match rest.drop run.length with
      | b :: tail =>
        if b = '-' || b = '*' || b = '+' then
          '\n' :: '\n' :: (run ++ b :: fix_list_spacing_aux fuel tail)
        else '\n' :: fix_list_spacing_aux fuel rest
      | [] => '\n' :: fix_list_spacing_aux fuel rest
    else c :: fix_list_spacing_aux fuel rest

/-- Newline cleanup: a run of three or more newlines collapses to two. -/
def collapse_newlines_aux : Nat → List Char → List Char
  | 0, s => s
  | _, [] => []
  | fuel + 1, c :: rest =>
    if c = '\n' then
      let run := rest.takeWhile (fun x => x = '\n')
      if 2 ≤ run.length then '\n' :: '\n' :: collapse_newlines_aux fuel (rest.drop run.length)
      else c :: collapse_newlines_aux fuel rest
    else c :: collapse_newlines_aux fuel rest

/-- ReportWriter._ensure_markdown_formatting: the four re.sub passes
in source order, then a whitespace strip. -/
def ensure_markdown_formatting (report : String) : String :=
  let formatted := fix_header_newlines report.toList
  let formatted := fix_header_spacing_aux false formatted
  let formatted := fix_list_spacing_aux (formatted.length + 1) formatted
  let formatted := collapse_newlines_aux (formatted.length + 1) formatted
  stripStr formatted.asString

/-- ReportWriter._add_report_header: prepend the fixed metadata header
with the generation timestamp. -/
def add_report_header (now report : String) : String :=
  "---\nGenerated: " ++ now ++
    "\nGenerator: Enhanced AI Research Engine\nFormat: Evidence-Backed Research Report\n---\n\n" ++ report

/-- ReportWriter._validate_and_format_report: the citation findall of
the source only feeds a log line, so validation is formatting plus the
header. -/
def validate_and_format_report (now markdown_report : String) : String :=
  add_report_header now (ensure_markdown_formatting markdown_report)

/-- Attempt to finish one inline-citation match after an opening
bracket: a nonempty bracket segment, then a nonempty parenthesis
segment; returns the remaining text on success. -/
def match_citation (rest : List Char) : Option (List Char) :=
  let seg1 := rest.takeWhile (fun c => c ≠ ']')
  if seg1.isEmpty then none
  else
    match rest.drop seg1.length with
    | ']' :: '(' :: rest2 =>
      let seg2 := rest2.takeWhile (fun c => c ≠ ')')
      if seg2.isEmpty then none
      else
        match rest2.drop seg2.length with
        | ')' :: tail => some tail
        | _ => none
    | _ => none

/-- Count of non-overlapping inline-citation matches, left to right,
as the findall of the citation pattern in the source. -/
def count_citations_aux : Nat → List Char → Nat
  | 0, _ => 0
  | _, [] => 0
  | fuel + 1, c :: rest =>
    if c = '[' then
      match match_citation rest with
      | some tail => 1 + count_citations_aux fuel tail
      | none => count_citations_aux fuel rest
    else count_citations_aux fuel rest

/-- Citation count of a report text. -/
def count_citations (s : String) : Nat := count_citations_aux (s.toList.length + 1) s.toList

/-- Word count by whitespace split, as Python len(s.split()). -/
def word_count (s : String) : Nat := (splitWs s.toList).length

/-- Whether a line begins with a hash mark. -/
def starts_with_hash (line : String) : Bool :=
  match line.toList with
  | c :: _ => c = '#'
  | [] => false

/-- Markdown header-line count, as the multiline findall of lines
beginning with hash marks. -/
def section_count (s : String) : Nat :=
  ((splitSep '\n' s).filter starts_with_hash).length

/-- The slice of the Analyst output dict consumed by the Writer and by
the claims: the per-question answers in dict order, and the
total_sources_analyzed metadata entry. -/
structure AnalysisResults where
  sub_question_answers : List (String × SynthesisResult) := []
  total_sources_analyzed : Nat := 0
deriving Repr, DecidableEq

/-- Report metadata dict; keys absent on the fallback path are
modelled by the defaults. -/
structure ReportMetadata where
  generation_timestamp : String := ""
  user_topic : String := ""
  word_count : Nat := 0
  citation_count : Nat := 0
  section_count : Nat := 0
  sources_analyzed : Nat := 0
  report_quality_score : ℚ := 0
  sub_questions_covered : Nat := 0
  fallback_mode : Bool := false
deriving Repr, DecidableEq

/-- The terminal report artifact. -/
structure Report where
  markdown_report : String
  metadata : ReportMetadata
  source_citation_map : List (String × CitationEntry) := []
deriving Repr, DecidableEq

/-- ReportWriter._generate_report_metadata. -/
def generate_report_metadata (now user_topic report : String)
    (analysis_results : AnalysisResults) : ReportMetadata :=
  { generation_timestamp := now,
    user_topic := user_topic,
    word_count := word_count report,
    citation_count := count_citations report,
    section_count := section_count report,
    sources_analyzed := analysis_results.total_sources_analyzed,
    report_quality_score := min ((count_citations report : ℚ) * (1/10)) 1,
    sub_questions_covered := analysis_results.sub_question_answers.length }

/-- ReportWriter._generate_fallback_report: the fixed fallback-mode
report text with the topic and answer count substituted, metadata with
citation_count zero and fallback_mode set. -/
def generate_fallback_report (now user_topic : String)
    (analysis_results : AnalysisResults) : Report :=
  let fallback_report :=
    "---\nGenerated: " ++ now ++
    "\nGenerator: Enhanced AI Research Engine (Fallback Mode)\n---\n\n# " ++ user_topic ++
    "\n\n## Report Generation Notice\n\nThis report was generated in fallback mode due to technical issues.\n\n## Research Summary\n\nResearch was completed with " ++
    toString analysis_results.sub_question_answers.length ++
    " sub-questions analyzed.\n\n## Recommendations\n\nFor complete analysis:\n1. Review saved research data\n2. Re-run report generation\n"
  { markdown_report := fallback_report,
    metadata :=
      { generation_timestamp := now,
        user_topic := user_topic,
        fallback_mode := true,
        word_count := word_count fallback_report,
        citation_count := 0 } }

/-- ReportWriter.generate_comprehensive_report with the markdown
drafting call (the only step of the try block that can raise) as an
Except parameter: a drafting exception yields the fallback report, so
the function is total and never propagates an exception. -/
def generate_comprehensive_report (now user_topic : String)
    (analysis_results : AnalysisResults) (draft : Except String String) : Report :=
  let source_citation_map := build_source_citation_map analysis_results.sub_question_answers
  match draft with
  | .ok markdown_report =>
    let validated_report := validate_and_format_report now markdown_report
    { markdown_report := validated_report,
      metadata := generate_report_metadata now user_topic validated_report analysis_results,
      source_citation_map := source_citation_map }
  | .error _ => generate_fallback_report now user_topic analysis_results

/-! EnhancedResearchEngine.comprehensive_research
(enhanced_research_engine.py lines 1069-1137).  Each phase is a
parameter returning Except; an error value models an exception raised
inside that phase, caught at the orchestrator boundary. -/

/-- The research_context bag: the original query plus the output of
each phase that completed, in phase order. -/
structure ResearchContext where
  user_query : String
  sub_questions : Option (List String) := none
  sources_data : Option (List (String × List SearchResult)) := none
  analysis_results : Option AnalysisResults := none
  report_results : Option Report := none
deriving Repr, DecidableEq

/-- Outcome of comprehensive_research: the success dict with the
report, or the failure dict with the error message and the partial
context. -/
inductive ResearchOutcome where
  | ok (research_context : ResearchContext) (report : Report)
  | failed (error : String) (research_context : ResearchContext)
deriving Repr, DecidableEq

/-- EnhancedResearchEngine.comprehensive_research: run the four phases
in order, recording each output in the context; an exception in any
phase stops the pipeline and returns the failure outcome with the
partial context, never re-raising. -/
def comprehensive_research
    (plan : String → Nat → Except String (List String))
    (scout : List String → Except String (List (String × List SearchResult)))
    (analyze : List (String × List SearchResult) → Except String AnalysisResults)
    (write : String → AnalysisResults → Except String Report)
    (user_query : String) (num_sub_questions : Nat) : ResearchOutcome :=
  let ctx0 : ResearchContext := { user_query := user_query }
  match plan user_query num_sub_questions with
  | .error e => .failed e ctx0
  | .ok sub_questions =>
    let ctx1 := { ctx0 with sub_questions := some sub_questions }
    match scout sub_questions with
    | .error e => .failed e ctx1
    | .ok sources_data =>
      let ctx2 := { ctx1 with sources_data := some sources_data }
      match analyze sources_data with
      | .error e => .failed e ctx2
      | .ok analysis_results =>
        let ctx3 := { ctx2 with analysis_results := some analysis_results }
        match write user_query analysis_results with
        | .error e => .failed e ctx3
        | .ok report_results =>
          let ctx4 := { ctx3 with report_results := some report_results }
          .ok ctx4 report_results

/-! AgentCollaborationManager cross-references
(agent_collaboration.py lines 302-338). -/

/-- The slice of one persona result dict used by the cross-reference
step. -/
structure AgentResult where
  analysis : String := ""
  executive_summary : String := ""
  key_insights : List String := []
  confidence : ℚ := 7/10
deriving Repr, DecidableEq

/-- One cross-reference dict. -/
structure CrossReference where
  agent1 : String
  agent2 : String
  insight1 : String
  insight2 : String
  similarity : ℚ
deriving Repr, DecidableEq

/-- Lowercase word set of a text, as Python set(text.lower().split()). -/
def word_set (t : String) : List String := (lowerWords t).dedup

/-- AgentCollaborationManager._calculate_text_similarity: Jaccard
similarity of the lowercase word sets, zero when the union is empty. -/
def calculate_text_similarity (text1 text2 : String) : ℚ :=
  let words1 := word_set text1
  let words2 := word_set text2
  let inter := words1.filter (fun w => words2.contains w)
  let uni := (words1 ++ words2).dedup
  if uni.isEmpty then 0 else (inter.length : ℚ) / uni.length

/-- Cross-references of one persona against all later personas, in
source iteration order. -/
def pair_cross_refs (a1 : String × AgentResult) (later : List (String × AgentResult)) :
    List CrossReference :=
  later.flatMap (fun a2 =>
    a1.2.key_insights.flatMap (fun insight1 =>
      a2.2.key_insights.filterMap (fun insight2 =>
        let similarity := calculate_text_similarity insight1 insight2
        if (3:ℚ)/10 < similarity then
          some { agent1 := a1.1, agent2 := a2.1, insight1 := insight1,
                 insight2 := insight2, similarity := similarity }
        else none)))

/-- All cross-references over ordered persona pairs. -/
def all_cross_refs : List (String × AgentResult) → List CrossReference
  | [] => []
  | a :: rest => pair_cross_refs a rest ++ all_cross_refs rest

/-- AgentCollaborationManager._find_cross_references: pairs of
insights from two different personas with similarity above 0.3, first
five kept. -/
def find_cross_references (agent_results : List (String × AgentResult)) :
    List CrossReference :=
  (all_cross_refs agent_results).take 5

/-! Claim theorems. -/

/-- C1: for every timestamp, topic, analysis-results map and drafting
exception, generate_comprehensive_report returns the fixed fallback
report, whose metadata has citation_count zero and whose markdown text
is non-empty; the embedding is a total function, so no exception
propagates. -/
theorem C1_fallback_report_totality (now user_topic : String)
    (analysis_results : AnalysisResults) (e : String) :
    generate_comprehensive_report now user_topic analysis_results (.error e) =
      generate_fallback_report now user_topic analysis_results ∧
    (generate_comprehensive_report now user_topic analysis_results (.error e)).metadata.citation_count = 0 ∧
    0 < (generate_comprehensive_report now user_topic analysis_results (.error e)).markdown_report.length := by
  refine ⟨rfl, rfl, ?_⟩
  show 0 < (generate_fallback_report now user_topic analysis_results).markdown_report.length
  simp only [generate_fallback_report, String.length_append]
  have h15 : ("---\nGenerated: " : String).length = 15 := rfl
  omega

/-- C2 counterexample: with target count 7 the template fallback
returns only the six fixed templates, not exactly seven sub-questions. -/
theorem C2_counterexample :
    (fallback_decomposition "electric vehicles" 7).length ≠ 7 := by decide

/-- C2 (amended): on a generation failure the fallback returns
exactly min(N, 6) sub-questions (so exactly N whenever N is at most
the six available templates), each one a fixed template applied to the
original query; the result is a pure function of the query and N. -/
theorem C2_fallback_decomposition_templates (user_query : String) (num_questions : Nat) :
    (fallback_decomposition user_query num_questions).length = min num_questions 6 ∧
    (num_questions ≤ 6 → (fallback_decomposition user_query num_questions).length = num_questions) ∧
    fallback_decomposition user_query num_questions = (base_aspects user_query).take num_questions ∧
    (∀ s ∈ fallback_decomposition user_query num_questions, s ∈ base_aspects user_query) ∧
    (base_aspects user_query).length = 6 := by
  refine ⟨?_, ?_, rfl, ?_, rfl⟩
  · rw [fallback_decomposition, List.length_take]; rfl
  · intro h
    rw [fallback_decomposition, List.length_take]
    exact Nat.min_eq_left h
  · intro s hs
    exact List.take_subset _ _ hs

/-- C2 witness: at query and target count 4 the fallback yields
exactly four sub-questions and the first template is among the six. -/
theorem C2_fallback_decomposition_templates_witness :
    (fallback_decomposition "solar power" 4).length = 4 ∧
    "What is solar power and how does it work?" ∈ base_aspects "solar power" := by
  have h := C2_fallback_decomposition_templates "solar power" 4
  exact ⟨h.2.1 (by decide), h.2.2.2.1 "What is solar power and how does it work?" (by decide)⟩

/-- C5: an exception in any of the four phases makes the orchestrator
return the failure outcome carrying the raised error, the original
query and exactly the outputs of the phases that completed; later
phases are absent from the context and no report is part of the
failure outcome. -/
theorem C5_orchestrator_failure
    (plan : String → Nat → Except String (List String))
    (scout : List String → Except String (List (String × List SearchResult)))
    (analyze : List (String × List SearchResult) → Except String AnalysisResults)
    (write : String → AnalysisResults → Except String Report)
    (user_query : String) (num_sub_questions : Nat) :
    (∀ e, plan user_query num_sub_questions = .error e →
      comprehensive_research plan scout analyze write user_query num_sub_questions =
        .failed e { user_query := user_query }) ∧
    (∀ subs e, plan user_query num_sub_questions = .ok subs → scout subs = .error e →
      comprehensive_research plan scout analyze write user_query num_sub_questions =
        .failed e { user_query := user_query, sub_questions := some subs }) ∧
    (∀ subs sd e, plan user_query num_sub_questions = .ok subs → scout subs = .ok sd →
      analyze sd = .error e →
      comprehensive_research plan scout analyze write user_query num_sub_questions =
        .failed e { user_query := user_query, sub_questions := some subs, sources_data := some sd }) ∧
    (∀ subs sd ar e, plan user_query num_sub_questions = .ok subs → scout subs = .ok sd →
      analyze sd = .ok ar → write user_query ar = .error e →
      comprehensive_research plan scout analyze write user_query num_sub_questions =
        .failed e { user_query := user_query, sub_questions := some subs,
                    sources_data := some sd, analysis_results := some ar }) := by
  refine ⟨?_, ?_, ?_, ?_⟩
  · intro e h
    simp [comprehensive_research, h]
  · intro subs e h1 h2
    simp [comprehensive_research, h1, h2]
  · intro subs sd e h1 h2 h3
    simp [comprehensive_research, h1, h2, h3]
  · intro subs sd ar e h1 h2 h3 h4
    simp [comprehensive_research, h1, h2, h3, h4]

/-- C5 witness: a concrete pipeline whose scouting phase raises stops
after planning and returns the failure outcome with the query, the
planned sub-questions, the error, and nothing later. -/
theorem C5_orchestrator_failure_witness :
    comprehensive_research (fun _ _ => .ok ["s1"]) (fun _ => .error "scout down")
      (fun _ => .ok {}) (fun _ _ => .error "unused") "q" 3 =
      .failed "scout down" { user_query := "q", sub_questions := some ["s1"] } := by
  have h := C5_orchestrator_failure (fun _ _ => .ok ["s1"]) (fun _ => .error "scout down")
    (fun _ => .ok {}) (fun _ _ => .error "unused") "q" 3
  exact h.2.1 ["s1"] "scout down" rfl rfl

/-- C6: the per-question Scout body returns at most
target_sources_per_query (3) sources; when the initial two variants
produce fewer than min_sources_per_query (5) extracted sources it
appends the deepening results before ranking and truncating; the
deepening step returns at most the number still needed and consults
exactly the three fixed deepening phrases. -/
theorem C6_minimum_source_guarantee (search : String → List SearchResult)
    (extract : SearchResult → Option SearchResult) (question : String) :
    (process_question search extract question).length ≤ target_sources_per_query ∧
    ((deep_search_with_extraction search extract question).length < min_sources_per_query →
      process_question search extract question =
        (rank_by_relevance question
          (deep_search_with_extraction search extract question ++
            search_deeper search question
              (deep_search_with_extraction search extract question).length)).take
          target_sources_per_query) ∧
    (∀ current_count,
      (search_deeper search question current_count).length ≤
        min_sources_per_query - current_count) ∧
    (deeper_terms question).length = 3 := by
  refine ⟨?_, ?_, ?_, rfl⟩
  · simp only [process_question]
    exact List.length_take_le _ _
  · intro h
    simp only [process_question, if_pos h]
  · intro current_count
    simp only [search_deeper]
    exact List.length_take_le _ _

/-- C6 witness: with a search service returning nothing the initial
count 0 is below the minimum, the deepening branch is taken, and the
final list length is at most three. -/
theorem C6_minimum_source_guarantee_witness :
    (process_question (fun _ => []) some "q").length ≤ target_sources_per_query ∧
    process_question (fun _ => []) some "q" =
      (rank_by_relevance "q"
        (deep_search_with_extraction (fun _ => []) some "q" ++
          search_deeper (fun _ => []) "q"
            (deep_search_with_extraction (fun _ => []) some "q").length)).take
        target_sources_per_query := by
  have h := C6_minimum_source_guarantee (fun _ => []) some "q"
  exact ⟨h.1, h.2.1 (by decide)⟩

/-- C8: every relevance score lies between 0 and 1, and a query with
no term longer than two characters scores exactly 0. -/
theorem C8_relevance_bound (query : String) (source : SearchResult) :
    0 ≤ calculate_relevance_score query source ∧
    calculate_relevance_score query source ≤ 1 ∧
    (score_words query = [] → calculate_relevance_score query source = 0) := by
  cases h : (score_words query).isEmpty with
  | true =>
    have h0 : calculate_relevance_score query source = 0 := by
      simp [calculate_relevance_score, h]
    exact ⟨by rw [h0], by rw [h0]; norm_num, fun _ => h0⟩
  | false =>
    have hne : ¬ score_words query = [] := by
      intro hnil
      rw [hnil] at h
      simp at h
    have hform : calculate_relevance_score query source =
        min (((overlapCount (score_words query) (score_words source.title) : ℚ) /
                (score_words query).length) * (30/100) +
             ((overlapCount (score_words query) (score_words source.extracted_content) : ℚ) /
                (score_words query).length) * (40/100) +
             ((overlapCount (score_words query) (score_words source.snippet) : ℚ) /
                (score_words query).length) * (20/100) +
             ((if source.extraction_success then (5/100 : ℚ) else 0) +
              (if strContains (lowerStr source.url) "edu" || strContains (lowerStr source.url) "org"
                  || strContains (lowerStr source.url) "gov" then (5/100 : ℚ) else 0))) 1 := by
      simp only [calculate_relevance_score, h, Bool.false_eq_true, if_false]
    refine ⟨?_, ?_, fun hnil => absurd hnil hne⟩
    · rw [hform]
      refine le_min ?_ zero_le_one
      have e1 : (0:ℚ) ≤ (if source.extraction_success then (5/100 : ℚ) else 0) := by
        split <;> norm_num
      have e2 : (0:ℚ) ≤ (if strContains (lowerStr source.url) "edu" || strContains (lowerStr source.url) "org"
          || strContains (lowerStr source.url) "gov" then (5/100 : ℚ) else 0) := by
        split <;> norm_num
      have d1 : (0:ℚ) ≤ ((overlapCount (score_words query) (score_words source.title) : ℚ) /
          (score_words query).length) * (30/100) := by positivity
      have d2 : (0:ℚ) ≤ ((overlapCount (score_words query) (score_words source.extracted_content) : ℚ) /
          (score_words query).length) * (40/100) := by positivity
      have d3 : (0:ℚ) ≤ ((overlapCount (score_words query) (score_words source.snippet) : ℚ) /
          (score_words query).length) * (20/100) := by positivity
      have := add_nonneg (add_nonneg (add_nonneg d1 d2) d3) (add_nonneg e1 e2)
      linarith
    · rw [hform]
      exact min_le_right _ _

/-- C8 witness: a query whose words are all short scores exactly 0 on
any source, and the bounds hold there. -/
theorem C8_relevance_bound_witness :
    0 ≤ calculate_relevance_score "ab cd" {} ∧
    calculate_relevance_score "ab cd" {} ≤ 1 ∧
    calculate_relevance_score "ab cd" {} = 0 := by
  have h := C8_relevance_bound "ab cd" {}
  exact ⟨h.1, h.2.1, h.2.2 (by decide)⟩

/-! Deduplication lemmas for C3. -/

/-- Every kept result has a non-empty lowercased url not in the seen
set, and is the first occurrence of its lowercased url in the input. -/
theorem remove_duplicates_go_find (rs : List SearchResult) (seen : List String) :
    ∀ r ∈ remove_duplicates_go rs seen,
      lowerStr r.url ≠ "" ∧ lowerStr r.url ∉ seen ∧
      rs.find? (fun x => lowerStr x.url == lowerStr r.url) = some r := by
  induction rs generalizing seen with
  | nil => simp [remove_duplicates_go]
  | cons a rs ih =>
    intro r hr
    simp only [remove_duplicates_go] at hr
    by_cases h1 : lowerStr a.url ≠ "" ∧ lowerStr a.url ∉ seen
    · rw [if_pos h1] at hr
      rcases List.mem_cons.mp hr with h | h
      · subst h
        exact ⟨h1.1, h1.2, List.find?_cons_of_pos _ (by simp)⟩
      · obtain ⟨hne, hseen, hfind⟩ := ih (lowerStr a.url :: seen) r h
        have hdiff : lowerStr a.url ≠ lowerStr r.url := by
          intro hh
          exact hseen (by rw [← hh]; exact List.mem_cons_self _ _)
        refine ⟨hne, fun hm => hseen (List.mem_cons_of_mem _ hm), ?_⟩
        rw [List.find?_cons_of_neg _ (by simpa using hdiff)]
        exact hfind
    · rw [if_neg h1] at hr
      obtain ⟨hne, hseen, hfind⟩ := ih seen r hr
      have hdiff : lowerStr a.url ≠ lowerStr r.url := by
        intro hh
        rcases not_and_or.mp h1 with h2 | h2
        · exact hne (by rw [← hh]; simpa using h2)
        · exact hseen (by rw [← hh]; simpa using h2)
      refine ⟨hne, hseen, ?_⟩
      rw [List.find?_cons_of_neg _ (by simpa using hdiff)]
      exact hfind

/-- The deduplicated list is a sublist of the input. -/
theorem remove_duplicates_go_sublist (rs : List SearchResult) (seen : List String) :
    (remove_duplicates_go rs seen).Sublist rs := by
  induction rs generalizing seen with
  | nil => simp [remove_duplicates_go]
  | cons a rs ih =>
    simp only [remove_duplicates_go]
    split
    · exact List.Sublist.cons₂ a (ih _)
    · exact List.Sublist.cons a (ih _)

/-- The lowercased urls of the deduplicated list are pairwise
distinct. -/
theorem remove_duplicates_go_nodup (rs : List SearchResult) (seen : List String) :
    ((remove_duplicates_go rs seen).map (fun r => lowerStr r.url)).Nodup := by
  induction rs generalizing seen with
  | nil => simp [remove_duplicates_go]
  | cons a rs ih =>
    simp only [remove_duplicates_go]
    split
    · rename_i h1
      simp only [List.map_cons, List.nodup_cons]
      refine ⟨?_, ih _⟩
      intro hmem
      obtain ⟨r, hr, hurl⟩ := List.mem_map.mp hmem
      obtain ⟨-, hseen, -⟩ := remove_duplicates_go_find rs (lowerStr a.url :: seen) r hr
      exact hseen (by rw [hurl]; exact List.mem_cons_self _ _)
    · exact ih _

/-- The deduplicated length is the number of distinct non-empty
lowercased urls not already seen. -/
theorem remove_duplicates_go_length (rs : List SearchResult) (seen : List String) :
    (remove_duplicates_go rs seen).length =
      ((((rs.map (fun r => lowerStr r.url)).filter (fun u => u ≠ "")).toFinset) \ seen.toFinset).card := by
  induction rs generalizing seen with
  | nil => simp [remove_duplicates_go]
  | cons a rs ih =>
    simp only [remove_duplicates_go, List.map_cons]
    by_cases hne : lowerStr a.url ≠ ""
    · rw [List.filter_cons_of_pos (by simpa using hne)]
      by_cases hseen : lowerStr a.url ∉ seen
      · rw [if_pos ⟨hne, hseen⟩]
        simp only [List.length_cons, ih (lowerStr a.url :: seen)]
        rw [List.toFinset_cons, List.toFinset_cons]
        have key : ∀ (T S : Finset String) (u : String), u ∉ S →
            (insert u T \ S).card = (T \ insert u S).card + 1 := by
          intro T S u hu
          have e1 : insert u T \ S = insert u (T \ S) := by
            ext x
            simp only [Finset.mem_sdiff, Finset.mem_insert]
            constructor
            · rintro ⟨hx | hx, hxs⟩
              · exact Or.inl hx
              · exact Or.inr ⟨hx, hxs⟩
            · rintro (hx | ⟨hx, hxs⟩)
              · exact ⟨Or.inl hx, by rw [hx]; exact hu⟩
              · exact ⟨Or.inr hx, hxs⟩
          have e2 : insert u (T \ S) = insert u ((T \ S).erase u) := by
            ext x
            simp only [Finset.mem_insert, Finset.mem_erase]
            constructor
            · rintro (hx | hx)
              · exact Or.inl hx
              · by_cases hxu : x = u
                · exact Or.inl hxu
                · exact Or.inr ⟨hxu, hx⟩
            · rintro (hx | ⟨-, hx⟩)
              · exact Or.inl hx
              · exact Or.inr hx
          have e3 : (T \ S).erase u = T \ insert u S := by
            ext x
            simp only [Finset.mem_erase, Finset.mem_sdiff, Finset.mem_insert]
            constructor
            · rintro ⟨hxu, hx, hxs⟩
              exact ⟨hx, by rintro (h | h); exact hxu h; exact hxs h⟩
            · rintro ⟨hx, hxs⟩
              exact ⟨fun h => hxs (Or.inl h), hx, fun h => hxs (Or.inr h)⟩
          rw [e1, e2, Finset.card_insert_of_not_mem (Finset.not_mem_erase _ _), e3]
        rw [key _ _ _ (by simpa using hseen)]
      · rw [if_neg (by tauto)]
        rw [ih seen]
        congr 1
        have hmem : lowerStr a.url ∈ seen := by simpa using hseen
        rw [List.toFinset_cons]
        ext x
        simp only [Finset.mem_sdiff, Finset.mem_insert, List.mem_toFinset]
        constructor
        · rintro ⟨hx, hxs⟩
          exact ⟨Or.inr hx, hxs⟩
        · rintro ⟨hx | hx, hxs⟩
          · exact absurd (by rw [hx]; exact hmem) hxs
          · exact ⟨hx, hxs⟩
    · push_neg at hne
      rw [List.filter_cons_of_neg (by simpa using hne)]
      rw [if_neg (by tauto)]
      exact ih seen

/-- C3 counterexample: two search results whose urls differ only in
protocol (http versus https) are one distinct resource (k equals 1),
yet the deduplication step keeps both entries, because normalization
is lowercasing only. -/
theorem C3_counterexample :
    (remove_duplicates [{ url := "http://a.com" }, { url := "https://a.com" }]).length ≠ 1 := by
  decide

/-- C3 (amended): deduplication is by lowercased url only, so for any
input the output has exactly one entry per distinct non-empty
lowercased url (case variants collapse, protocol variants stay
distinct), each kept entry being the first occurrence of its
lowercased url in the input, in input order. -/
theorem C3_dedup_case_variants (results : List SearchResult) :
    (remove_duplicates results).length =
      ((((results.map (fun r => lowerStr r.url)).filter (fun u => u ≠ "")).toFinset)).card ∧
    (remove_duplicates results).Sublist results ∧
    (∀ r ∈ remove_duplicates results,
      results.find? (fun x => lowerStr x.url == lowerStr r.url) = some r) ∧
    ((remove_duplicates results).map (fun r => lowerStr r.url)).Nodup := by
  refine ⟨?_, remove_duplicates_go_sublist results [], ?_, remove_duplicates_go_nodup results []⟩
  · have h := remove_duplicates_go_length results []
    simpa using h
  · intro r hr
    exact (remove_duplicates_go_find results [] r hr).2.2

/-- C3 witness: three results with two case variants of one url and a
distinct second url dedupe to exactly two entries, keeping first
occurrences. -/
theorem C3_dedup_case_variants_witness :
    (remove_duplicates [{ url := "https://A.com" }, { url := "https://a.COM" },
        { url := "https://b.com" }]).length = 2 ∧
    [({ url := "https://A.com" } : SearchResult), { url := "https://a.COM" },
        { url := "https://b.com" }].find?
      (fun x => lowerStr x.url == lowerStr ({ url := "https://A.com" } : SearchResult).url) =
      some { url := "https://A.com" } := by
  have h := C3_dedup_case_variants [{ url := "https://A.com" }, { url := "https://a.COM" },
    { url := "https://b.com" }]
  refine ⟨?_, h.2.2.1 { url := "https://A.com" } (by decide)⟩
  rw [h.1]
  decide

/-- C4 counterexample: when every generation call fails (extraction
included), the extraction stage yields no facts, so the per-question
synthesis takes the empty-extraction early return with confidence 0,
not the fallback value 0.6. -/
theorem C4_counterexample :
    (synthesize_information (.error "timeout")
      (extract_information_from_sources (fun _ => .error "timeout")
        [{ url := "https://a.com",
           extracted_content := "aaaaaaaaaaaaaaaaaaaaaaaaaaaaaaaaaaaaaaaaaaaaaaaaaa" }])
      "q").confidence_score ≠ 6/10 := by
  have hext : extract_information_from_sources (fun _ => .error "timeout")
      [{ url := "https://a.com",
         extracted_content := "aaaaaaaaaaaaaaaaaaaaaaaaaaaaaaaaaaaaaaaaaaaaaaaaaa" }] =
      ([] : List Extraction) := by decide
  rw [hext]
  have h0 : (synthesize_information (.error "timeout") ([] : List Extraction) "q").confidence_score
      = 0 := rfl
  rw [h0]
  norm_num

/-- C4 (amended): when the synthesis generation call fails but at
least one per-source extraction succeeded with facts, the
deterministic fallback applies — facts with confidence at least 0.7
are preferred, the first three of the preferred list are joined as the
answer — and the returned confidence is exactly 0.6; when every
generation call fails the extraction stage returns no extractions and
the synthesis answer carries confidence 0. -/
theorem C4_fallback_synthesis_confidence (gen_error : String)
    (extractions : List Extraction) (sub_question : String)
    (hne : extractions ≠ [])
    (hfacts : ∀ ext ∈ extractions, ext.key_information ≠ []) :
    synthesize_information (.error gen_error) extractions sub_question =
      fallback_synthesis (extractions.flatMap (fun e => e.key_information))
        (extractions.map (fun e => e.source_metadata)) sub_question ∧
    (synthesize_information (.error gen_error) extractions sub_question).confidence_score = 6/10 ∧
    (synthesize_information (.error gen_error) extractions sub_question).answer =
      (if ((extractions.flatMap (fun e => e.key_information)).filter
            (fun f => (7:ℚ)/10 ≤ f.confidence)).isEmpty then
        String.intercalate ". "
          (((extractions.flatMap (fun e => e.key_information)).take 3).map (fun f => f.fact))
      else
        String.intercalate ". "
          ((((extractions.flatMap (fun e => e.key_information)).filter
              (fun f => (7:ℚ)/10 ≤ f.confidence)).take 3).map (fun f => f.fact))) ∧
    (∀ sources : List SearchResult,
      extract_information_from_sources (fun _ => .error gen_error) sources = []) := by
  have hAllFail : ∀ sources : List SearchResult,
      extract_information_from_sources (fun _ => .error gen_error) sources = [] := by
    intro sources
    simp [extract_information_from_sources]
  have hEmp : extractions.isEmpty = false := by
    cases extractions with
    | nil => exact absurd rfl hne
    | cons e rest => rfl
  have hFactsNe : (extractions.flatMap (fun e => e.key_information)).isEmpty = false := by
    cases extractions with
    | nil => exact absurd rfl hne
    | cons e rest =>
      have h1 : e.key_information ≠ [] := hfacts e (List.mem_cons_self _ _)
      cases hki : e.key_information with
      | nil => exact absurd hki h1
      | cons f fs => simp [List.flatMap_cons, hki]
  have hEq : synthesize_information (.error gen_error) extractions sub_question =
      fallback_synthesis (extractions.flatMap (fun e => e.key_information))
        (extractions.map (fun e => e.source_metadata)) sub_question := by
    simp [synthesize_information, hEmp]
  refine ⟨hEq, ?_, ?_, hAllFail⟩
  · rw [hEq]
    simp [fallback_synthesis, hFactsNe]
  · rw [hEq]
    simp only [fallback_synthesis, hFactsNe, Bool.false_eq_true, if_false]

/-- C4 witness: one successful extraction with a high-confidence fact
and a failing synthesis call yields that fact as the answer with
confidence exactly 0.6. -/
theorem C4_fallback_synthesis_confidence_witness :
    (synthesize_information (.error "timeout")
      [{ key_information := [{ fact := "F1", confidence := 9/10 }],
         source_metadata := { url := "https://a.com" } }] "q").confidence_score = 6/10 := by
  have h := C4_fallback_synthesis_confidence "timeout"
    [{ key_information := [{ fact := "F1", confidence := 9/10 }],
       source_metadata := { url := "https://a.com" } }] "q"
    (by simp) (by simp)
  exact h.2.1

/-! Dict lemmas for C10. -/

/-- Properties of Python dict assignment on the association-list
model: keys stay distinct, the key set gains exactly the new key, and
every binding is an old one or the new one. -/
theorem dict_insert_spec {α : Type} (m : List (String × α)) (k : String) (v : α)
    (h : (m.map Prod.fst).Nodup) :
    ((dict_insert m k v).map Prod.fst).Nodup ∧
    (∀ q, q ∈ (dict_insert m k v).map Prod.fst ↔ q ∈ m.map Prod.fst ∨ q = k) ∧
    (∀ p ∈ dict_insert m k v, p ∈ m ∨ p = (k, v)) := by
  by_cases hk : k ∈ m.map Prod.fst
  · have hval : dict_insert m k v = m.map (fun p => if p.1 = k then (k, v) else p) := by
      unfold dict_insert
      rw [if_pos hk]
    have hkeys : (dict_insert m k v).map Prod.fst = m.map Prod.fst := by
      rw [hval, List.map_map]
      refine List.map_congr_left ?_
      intro p hp
      by_cases hpk : p.1 = k
      · simp [hpk]
      · simp [hpk]
    refine ⟨by rw [hkeys]; exact h, ?_, ?_⟩
    · intro q
      rw [hkeys]
      constructor
      · exact Or.inl
      · rintro (hq | hq)
        · exact hq
        · rw [hq]; exact hk
    · intro p hp
      rw [hval] at hp
      obtain ⟨p0, hp0, hfp⟩ := List.mem_map.mp hp
      by_cases hpk : p0.1 = k
      · right
        rw [← hfp, if_pos hpk]
      · left
        rw [← hfp, if_neg hpk]
        exact hp0
  · have hval : dict_insert m k v = m ++ [(k, v)] := by
      unfold dict_insert
      rw [if_neg hk]
    refine ⟨?_, ?_, ?_⟩
    · rw [hval, List.map_append, List.nodup_append]
      refine ⟨h, by simp, ?_⟩
      intro a ha hak
      have haeq : a = k := by simpa using hak
      exact hk (haeq ▸ ha)
    · intro q
      rw [hval]
      simp
    · intro p hp
      rw [hval] at hp
      rcases List.mem_append.mp hp with hp | hp
      · exact Or.inl hp
      · exact Or.inr (by simpa using hp)

/-- Invariant of the Scout loop fold: keys stay distinct, the key set
is the accumulator keys plus the processed questions, and every
binding is the process output or the empty list recorded for a raised
exception. -/
theorem deep_search_fold (process : String → Except String (List SearchResult))
    (qs : List String) :
    ∀ m : List (String × List SearchResult), (m.map Prod.fst).Nodup →
      (∀ p ∈ m, process p.1 = .ok p.2 ∨ ∃ e, process p.1 = .error e ∧ p.2 = []) →
      ((qs.foldl (fun acc question =>
          match process question with
          | .ok sources => dict_insert acc question sources
          | .error _ => dict_insert acc question []) m).map Prod.fst).Nodup ∧
      (∀ q, q ∈ (qs.foldl (fun acc question =>
          match process question with
          | .ok sources => dict_insert acc question sources
          | .error _ => dict_insert acc question []) m).map Prod.fst ↔
          q ∈ m.map Prod.fst ∨ q ∈ qs) ∧
      (∀ p ∈ qs.foldl (fun acc question =>
          match process question with
          | .ok sources => dict_insert acc question sources
          | .error _ => dict_insert acc question []) m,
        process p.1 = .ok p.2 ∨ ∃ e, process p.1 = .error e ∧ p.2 = []) := by
  induction qs with
  | nil =>
    intro m hnd hq
    exact ⟨hnd, fun q => by simp, hq⟩
  | cons q0 qs ih =>
    intro m hnd hq
    simp only [List.foldl_cons]
    have hstep : ∀ v, (∀ p ∈ m, process p.1 = .ok p.2 ∨ ∃ e, process p.1 = .error e ∧ p.2 = []) →
        (process q0 = .ok v ∨ ∃ e, process q0 = .error e ∧ v = []) →
        ((dict_insert m q0 v).map Prod.fst).Nodup ∧
        (∀ p ∈ dict_insert m q0 v, process p.1 = .ok p.2 ∨ ∃ e, process p.1 = .error e ∧ p.2 = []) ∧
        (∀ q, q ∈ (dict_insert m q0 v).map Prod.fst ↔ q ∈ m.map Prod.fst ∨ q = q0) := by
      intro v hm hv
      obtain ⟨s1, s2, s3⟩ := dict_insert_spec m q0 v hnd
      refine ⟨s1, ?_, s2⟩
      intro p hp
      rcases s3 p hp with hp | hp
      · exact hm p hp
      · rw [hp]; exact hv
    cases hq0 : process q0 with
    | ok sources =>
      obtain ⟨s1, s2, s3⟩ := hstep sources hq (Or.inl hq0)
      obtain ⟨t1, t2, t3⟩ := ih (dict_insert m q0 sources) s1 s2
      refine ⟨t1, ?_, t3⟩
      intro q
      rw [t2 q, s3 q]
      simp only [List.mem_cons]
      tauto
    | error e =>
      obtain ⟨s1, s2, s3⟩ := hstep [] hq (Or.inr ⟨e, hq0, rfl⟩)
      obtain ⟨t1, t2, t3⟩ := ih (dict_insert m q0 []) s1 s2
      refine ⟨t1, ?_, t3⟩
      intro q
      rw [t2 q, s3 q]
      simp only [List.mem_cons]
      tauto

/-- C10: the Scout gather loop returns a dict whose key set is
exactly the set of input sub-questions, with distinct keys; a
sub-question whose processing raised is present bound to the empty
list, and the loop is a total function (the per-question exception is
caught inside the loop, never re-raised). -/
theorem C10_scout_total_map (process : String → Except String (List SearchResult))
    (sub_questions : List String) :
    ((deep_search_all_questions process sub_questions).map Prod.fst).Nodup ∧
    (∀ q, q ∈ (deep_search_all_questions process sub_questions).map Prod.fst ↔
      q ∈ sub_questions) ∧
    (∀ p ∈ deep_search_all_questions process sub_questions,
      process p.1 = .ok p.2 ∨ ∃ e, process p.1 = .error e ∧ p.2 = []) := by
  obtain ⟨h1, h2, h3⟩ := deep_search_fold process sub_questions [] (by simp) (by simp)
  refine ⟨h1, ?_, h3⟩
  intro q
  rw [deep_search_all_questions, h2 q]
  simp

/-- C10 witness: with one failing question between two successful
ones, all three keys are present, the failed one bound to the empty
list. -/
theorem C10_scout_total_map_witness :
    "q2" ∈ (deep_search_all_questions
      (fun q => if q = "q2" then .error "boom" else .ok [{ url := "https://a.com" }])
      ["q1", "q2", "q3"]).map Prod.fst ∧
    (if "q2" = "q2" then (.error "boom" : Except String (List SearchResult))
      else .ok [{ url := "https://a.com" }]) = .error "boom" ∧
    (("q2", ([] : List SearchResult)) ∈ deep_search_all_questions
      (fun q => if q = "q2" then .error "boom" else .ok [{ url := "https://a.com" }])
      ["q1", "q2", "q3"] →
      (fun q => if q = "q2" then (.error "boom" : Except String (List SearchResult))
        else .ok [{ url := "https://a.com" }]) "q2" = .ok [] ∨
      ∃ e, (fun q => if q = "q2" then (.error "boom" : Except String (List SearchResult))
        else .ok [{ url := "https://a.com" }]) "q2" = .error e ∧ ([] : List SearchResult) = []) := by
  have h := C10_scout_total_map
    (fun q => if q = "q2" then .error "boom" else .ok [{ url := "https://a.com" }])
    ["q1", "q2", "q3"]
  exact ⟨(h.2.1 "q2").mpr (by decide), rfl, fun hm => h.2.2 ("q2", []) hm⟩

/-! Citation-map lemmas for C7. -/

/-- Folding add_citation over a url list only appends entries for
fresh urls, each built by mk_citation from the current question. -/
theorem add_citation_fold (q : String) (us : List String)
    (m : List (String × CitationEntry)) :
    ∃ ext, us.foldl (add_citation q) m = m ++ ext ∧
      (ext.map Prod.fst).Nodup ∧
      (∀ p ∈ ext, p.1 ∉ m.map Prod.fst ∧ p.1 ∈ us ∧ p.2 = mk_citation q p.1) := by
  induction us generalizing m with
  | nil => exact ⟨[], by simp, by simp, by simp⟩
  | cons u us ih =>
    simp only [List.foldl_cons]
    by_cases hu : u ∈ m.map Prod.fst
    · have hstep : add_citation q m u = m := by
        unfold add_citation
        rw [if_pos hu]
      rw [hstep]
      obtain ⟨ext, h1, h2, h3⟩ := ih m
      exact ⟨ext, h1, h2, fun p hp =>
        ⟨(h3 p hp).1, List.mem_cons_of_mem _ (h3 p hp).2.1, (h3 p hp).2.2⟩⟩
    · have hstep : add_citation q m u = m ++ [(u, mk_citation q u)] := by
        unfold add_citation
        rw [if_neg hu]
      rw [hstep]
      obtain ⟨ext, h1, h2, h3⟩ := ih (m ++ [(u, mk_citation q u)])
      refine ⟨(u, mk_citation q u) :: ext, ?_, ?_, ?_⟩
      · rw [h1, List.append_assoc]
        rfl
      · simp only [List.map_cons, List.nodup_cons]
        refine ⟨?_, h2⟩
        intro hmem
        obtain ⟨p, hp, hp1⟩ := List.mem_map.mp hmem
        refine (h3 p hp).1 ?_
        rw [hp1, List.map_append]
        exact List.mem_append.mpr (Or.inr (by simp))
      · intro p hp
        rcases List.mem_cons.mp hp with hp | hp
        · rw [hp]
          exact ⟨hu, List.mem_cons_self _ _, rfl⟩
        · obtain ⟨hp1, hp2, hp3⟩ := h3 p hp
          refine ⟨fun hm => hp1 ?_, List.mem_cons_of_mem _ hp2, hp3⟩
          rw [List.map_append]
          exact List.mem_append.mpr (Or.inl hm)

/-- Every url of the list ends up among the keys after folding
add_citation over it. -/
theorem add_citation_covers (q : String) (us : List String)
    (m : List (String × CitationEntry)) :
    ∀ u ∈ us, u ∈ (us.foldl (add_citation q) m).map Prod.fst := by
  induction us generalizing m with
  | nil => simp
  | cons u0 us ih =>
    intro u hu
    simp only [List.foldl_cons]
    rcases List.mem_cons.mp hu with hu | hu
    · subst hu
      have hu0 : u ∈ (add_citation q m u).map Prod.fst := by
        unfold add_citation
        split
        · assumption
        · rw [List.map_append]
          exact List.mem_append.mpr (Or.inr (by simp))
      obtain ⟨ext, h1, -, -⟩ := add_citation_fold q us (add_citation q m u)
      rw [h1, List.map_append]
      exact List.mem_append.mpr (Or.inl hu0)
    · exact ih _ u hu

/-- Invariant of the citation-map build: keys are distinct, every
entry records its own url, the derived title, and as its origin the
first processed answer whose source_urls contain the url, and every
url of a processed answer is a key. -/
def citation_inv (processed : List (String × SynthesisResult))
    (m : List (String × CitationEntry)) : Prop :=
  (m.map Prod.fst).Nodup ∧
  (∀ p ∈ m, p.2.url = p.1 ∧ p.2.title = generate_source_title_from_url p.1 ∧
    (processed.find? (fun qa => qa.2.source_urls.contains p.1)).map Prod.fst =
      some p.2.question_context) ∧
  (∀ qa ∈ processed, ∀ u ∈ qa.2.source_urls, u ∈ m.map Prod.fst)

/-- One answer preserves the citation-map invariant. -/
theorem citation_inv_step (processed : List (String × SynthesisResult))
    (qa : String × SynthesisResult) (m : List (String × CitationEntry))
    (h : citation_inv processed m) :
    citation_inv (processed ++ [qa]) (qa.2.source_urls.foldl (add_citation qa.1) m) := by
  obtain ⟨hnd, hent, hcov⟩ := h
  obtain ⟨ext, he, hextnd, hext⟩ := add_citation_fold qa.1 qa.2.source_urls m
  have hkeys : (qa.2.source_urls.foldl (add_citation qa.1) m).map Prod.fst =
      m.map Prod.fst ++ ext.map Prod.fst := by
    rw [he, List.map_append]
  refine ⟨?_, ?_, ?_⟩
  · rw [hkeys, List.nodup_append]
    refine ⟨hnd, hextnd, ?_⟩
    intro a ha hae
    obtain ⟨p, hp, hp1⟩ := List.mem_map.mp hae
    exact (hext p hp).1 (hp1 ▸ ha)
  · intro p hp
    rw [he] at hp
    rcases List.mem_append.mp hp with hp | hp
    · obtain ⟨e1, e2, e3⟩ := hent p hp
      refine ⟨e1, e2, ?_⟩
      obtain ⟨x, hx, hx1⟩ := Option.map_eq_some'.mp e3
      rw [List.find?_append, hx]
      simpa using hx1
    · obtain ⟨hp1, hp2, hp3⟩ := hext p hp
      rw [hp3]
      refine ⟨rfl, rfl, ?_⟩
      have hnone : processed.find? (fun qa2 => qa2.2.source_urls.contains p.1) = none := by
        rw [List.find?_eq_none]
        intro x hx hcontains
        exact hp1 (hcov x hx p.1 (by simpa using hcontains))
      rw [List.find?_append, hnone]
      have hone : [qa].find? (fun qa2 => qa2.2.source_urls.contains p.1) = some qa := by
        apply List.find?_cons_of_pos
        simpa using hp2
      simp [hone, mk_citation, hp2]
  · intro qa2 hqa2 u hu
    rcases List.mem_append.mp hqa2 with hqa2 | hqa2
    · rw [hkeys]
      exact List.mem_append.mpr (Or.inl (hcov qa2 hqa2 u hu))
    · have hqaeq : qa2 = qa := by simpa using hqa2
      exact add_citation_covers qa.1 qa.2.source_urls m u (hqaeq ▸ hu)

/-- The citation-map invariant holds after folding any answer list. -/
theorem citation_inv_fold (rest : List (String × SynthesisResult)) :
    ∀ (processed : List (String × SynthesisResult)) (m : List (String × CitationEntry)),
      citation_inv processed m →
      citation_inv (processed ++ rest)
        (rest.foldl (fun m qa => qa.2.source_urls.foldl (add_citation qa.1) m) m) := by
  induction rest with
  | nil =>
    intro processed m h
    simpa using h
  | cons qa rest ih =>
    intro processed m h
    simp only [List.foldl_cons]
    have h3 := ih (processed ++ [qa]) _ (citation_inv_step processed qa m h)
    simpa [List.append_assoc] using h3

/-- C7: the citation map has at most one entry per distinct url
(distinct keys), every entry carries its url, the derived title, and
the first answer in iteration order whose source_urls contain the url
as its origin; every url of every answer is covered; and rebuilding
from the same input yields the identical map, the builder being a pure
function of its input. -/
theorem C7_citation_map_first_writer_wins
    (sub_question_answers : List (String × SynthesisResult)) :
    ((build_source_citation_map sub_question_answers).map Prod.fst).Nodup ∧
    (∀ p ∈ build_source_citation_map sub_question_answers,
      p.2.url = p.1 ∧ p.2.title = generate_source_title_from_url p.1 ∧
      (sub_question_answers.find? (fun qa => qa.2.source_urls.contains p.1)).map Prod.fst =
        some p.2.question_context) ∧
    (∀ qa ∈ sub_question_answers, ∀ u ∈ qa.2.source_urls,
      u ∈ (build_source_citation_map sub_question_answers).map Prod.fst) ∧
    build_source_citation_map sub_question_answers =
      build_source_citation_map sub_question_answers := by
  have h0 : citation_inv [] [] := ⟨by simp, by simp, by simp⟩
  have h := citation_inv_fold sub_question_answers [] [] h0
  simp only [List.nil_append] at h
  exact ⟨h.1, h.2.1, h.2.2, rfl⟩

/-- C7 witness: with two answers both citing the same url, the map
records the first answer as origin. -/
theorem C7_citation_map_first_writer_wins_witness :
    ([("q1", ({ source_urls := ["https://arxiv.org/abs/1"] } : SynthesisResult)),
      ("q2", { source_urls := ["https://arxiv.org/abs/1"] })].find?
        (fun qa => qa.2.source_urls.contains "https://arxiv.org/abs/1")).map Prod.fst =
      some (mk_citation "q1" "https://arxiv.org/abs/1").question_context := by
  have h := C7_citation_map_first_writer_wins
    [("q1", { source_urls := ["https://arxiv.org/abs/1"] }),
     ("q2", { source_urls := ["https://arxiv.org/abs/1"] })]
  have hm := h.2.1 ("https://arxiv.org/abs/1", mk_citation "q1" "https://arxiv.org/abs/1")
    (by decide)
  exact hm.2.2

/-- Every cross-reference in the full pairwise list records the
Jaccard similarity of its two insights, exceeds the 0.3 threshold, and
pairs insights from two different personas of the input. -/
theorem mem_all_cross_refs (agent_results : List (String × AgentResult))
    (hkeys : (agent_results.map Prod.fst).Nodup) :
    ∀ c ∈ all_cross_refs agent_results,
      c.similarity = calculate_text_similarity c.insight1 c.insight2 ∧
      (3:ℚ)/10 < c.similarity ∧
      c.agent1 ≠ c.agent2 ∧
      (∃ a1 ∈ agent_results, a1.1 = c.agent1 ∧ c.insight1 ∈ a1.2.key_insights) ∧
      (∃ a2 ∈ agent_results, a2.1 = c.agent2 ∧ c.insight2 ∈ a2.2.key_insights) := by
  induction agent_results with
  | nil => simp [all_cross_refs]
  | cons a rest ih =>
    have hkeys2 : (a.1 :: rest.map Prod.fst).Nodup := by simpa using hkeys
    have hnd := List.nodup_cons.mp hkeys2
    intro c hc
    simp only [all_cross_refs] at hc
    rcases List.mem_append.mp hc with hc | hc
    · simp only [pair_cross_refs, List.mem_flatMap, List.mem_filterMap] at hc
      obtain ⟨a2, ha2, i1, hi1, i2, hi2, hsome⟩ := hc
      by_cases hth : (3:ℚ)/10 < calculate_text_similarity i1 i2
      · rw [if_pos hth] at hsome
        injection hsome with hceq
        subst hceq
        refine ⟨rfl, hth, ?_, ?_, ?_⟩
        · intro heq
          have heq2 : a.1 = a2.1 := heq
          exact hnd.1 (heq2.symm ▸ List.mem_map.mpr ⟨a2, ha2, rfl⟩)
        · exact ⟨a, List.mem_cons_self _ _, rfl, hi1⟩
        · exact ⟨a2, List.mem_cons_of_mem _ ha2, rfl, hi2⟩
      · rw [if_neg hth] at hsome
        exact absurd hsome (by simp)
    · obtain ⟨g1, g2, g3, ⟨a1, ha1, g4⟩, ⟨a2, ha2, g5⟩⟩ := ih hnd.2 c hc
      exact ⟨g1, g2, g3, ⟨a1, List.mem_cons_of_mem _ ha1, g4⟩,
        ⟨a2, List.mem_cons_of_mem _ ha2, g5⟩⟩

/-- C9: with distinct persona keys (a Python dict guarantees this),
every cross-reference kept by _find_cross_references records the
Jaccard similarity over lowercase word sets of its two insights, that
similarity is strictly above 0.3, the two personas differ and both
come from the input with their insights; the kept list is the first
five of the full pairwise enumeration, hence at most five entries. -/
theorem C9_cross_reference_pairs (agent_results : List (String × AgentResult))
    (hkeys : (agent_results.map Prod.fst).Nodup) :
    find_cross_references agent_results = (all_cross_refs agent_results).take 5 ∧
    (find_cross_references agent_results).length ≤ 5 ∧
    (∀ c ∈ find_cross_references agent_results,
      c.similarity = calculate_text_similarity c.insight1 c.insight2 ∧
      (3:ℚ)/10 < c.similarity ∧
      c.agent1 ≠ c.agent2 ∧
      (∃ a1 ∈ agent_results, a1.1 = c.agent1 ∧ c.insight1 ∈ a1.2.key_insights) ∧
      (∃ a2 ∈ agent_results, a2.1 = c.agent2 ∧ c.insight2 ∈ a2.2.key_insights)) := by
  refine ⟨rfl, List.length_take_le _ _, ?_⟩
  intro c hc
  exact mem_all_cross_refs agent_results hkeys c (List.take_subset _ _ hc)

/-- C9 witness: two personas with distinct names instantiate the
theorem; the kept list is the five-truncation of the enumeration and
has at most five entries. -/
theorem C9_cross_reference_pairs_witness :
    find_cross_references [("alpha", { key_insights := ["x y"] }),
        ("beta", { key_insights := ["x y"] })] =
      (all_cross_refs [("alpha", { key_insights := ["x y"] }),
        ("beta", { key_insights := ["x y"] })]).take 5 ∧
    (find_cross_references [("alpha", { key_insights := ["x y"] }),
        ("beta", { key_insights := ["x y"] })]).length ≤ 5 := by
  have h := C9_cross_reference_pairs
    [("alpha", { key_insights := ["x y"] }), ("beta", { key_insights := ["x y"] })]
    (by decide)
  exact ⟨h.1, h.2.1⟩

end ResearchEngine
